import Mathlib

/-!
Verification of the eco-friend frontend core (Codec, Transport, Normalizer,
Orchestrator) against its natural-language specification.

The JavaScript sources embedded here are:
  * src/frontend/script.js   — maybeCompress, uploadWithProgress,
                               normalizeResponse, analyzeImage
  * src/frontend/analyze.js  — compressImage, uploadFileWithProgress,
                               the analyze-button click handler

JavaScript values are modelled by the inductive type `JsVal`; machine
floating point is modelled by exact rationals (`ℚ`) plus an explicit NaN
marker, which preserves every comparison made by the code on the literals
it actually uses (0.92, 0.07, 0.35, byte counts).  Fallible JavaScript code
(property access on null/undefined, thrown errors) is modelled with
`Except JsError`.
-/

/-- JavaScript numbers: an exact rational or NaN.  (The code never produces
infinities on the paths modelled here.) -/
inductive JNum where
  | fin (q : ℚ)
  | nan
deriving DecidableEq, Repr

/-- A JSON-like JavaScript value: null, undefined, boolean, number, string,
array, or plain object (association list of fields; keys assumed distinct,
as in all object literals of the sources). -/
inductive JsVal where
  | vnull
  | vundefined
  | vbool (b : Bool)
  | vnum (n : JNum)
  | vstr (s : String)
  | varr (xs : List JsVal)
  | vobj (fields : List (String × JsVal))

namespace JsVal

/-- JavaScript truthiness (ToBoolean). -/
def truthy : JsVal → Bool
  | .vnull => false
  | .vundefined => false
  | .vbool b => b
  | .vnum (.fin q) => q ≠ 0
  | .vnum .nan => false
  | .vstr s => s ≠ ""
  | .varr _ => true
  | .vobj _ => true

/-- Field lookup in an association list (first match). -/
def lookupF : List (String × JsVal) → String → JsVal
  | [], _ => .vundefined
  | (k', v) :: rest, k => if k' = k then v else lookupF rest k

/-- `v.k` for a named property `k`.  On plain objects it is a field lookup;
on every other non-null value it is `undefined` (none of the names probed by
the sources is a built-in property of primitives or arrays).  Callers in the
sources only apply this to non-null/non-undefined values; for totality those
two cases also return `undefined` here, and the one place the code can hit
them (array elements inside `normalizeResponse`) raises `typeError` before
any lookup. -/
def getF : JsVal → String → JsVal
  | .vobj fields, k => lookupF fields k
  | _, _ => .vundefined

/-- `a || b`. -/
def jsOr (a b : JsVal) : JsVal := if a.truthy then a else b

/-- `a && b`. -/
def jsAnd (a b : JsVal) : JsVal := if a.truthy then b else a

/-- `Array.isArray`. -/
def isArr : JsVal → Bool
  | .varr _ => true
  | _ => false

/-- The element list of an array value (else empty). -/
def asArr : JsVal → List JsVal
  | .varr xs => xs
  | _ => []

/-- `v === undefined` (strict equality against `undefined`). -/
def isUndefined : JsVal → Bool
  | .vundefined => true
  | _ => false

/-- `v === null`. -/
def isNull : JsVal → Bool
  | .vnull => true
  | _ => false

end JsVal

/-- Rendering of a JavaScript number as a string.  Integers are rendered
exactly as JavaScript does; the decimal rendering of non-integer rationals is
abbreviated (it is reached by no claim verified in this file, which only ever
stringifies strings and integers). -/
def JNum.render : JNum → String
  | .nan => "NaN"
  | .fin q => if q.den = 1 then (if q.num < 0 then "-" ++ Nat.repr q.num.natAbs else Nat.repr q.num.natAbs)
      else Nat.repr q.num.natAbs ++ "/" ++ Nat.repr q.den

namespace JsVal

mutual

/-- JavaScript ToString.  Arrays render as the comma-join of their elements,
with `null`/`undefined` elements rendered empty, as `Array.prototype.join`
does; plain objects render as `"[object Object]"`. -/
def jsToString : JsVal → String
  | .vnull => "null"
  | .vundefined => "undefined"
  | .vbool true => "true"
  | .vbool false => "false"
  | .vnum n => n.render
  | .vstr s => s
  | .varr xs => arrToString xs
  | .vobj _ => "[object Object]"

/-- Comma-join used by array ToString (`Array.prototype.join`): `null` and
`undefined` elements render as the empty string. -/
def arrToString : List JsVal → String
  | [] => ""
  | [.vnull] => ""
  | [.vundefined] => ""
  | [x] => jsToString x
  | .vnull :: y :: xs => "," ++ arrToString (y :: xs)
  | .vundefined :: y :: xs => "," ++ arrToString (y :: xs)
  | x :: y :: xs => jsToString x ++ "," ++ arrToString (y :: xs)

end

end JsVal

/-- Value of a list of characters all of which are decimal digits; `none` if
any character is not a digit.  (The empty list yields 0; callers guard
emptiness.) -/
def decDigitsVal (cs : List Char) : Option ℕ :=
  cs.foldl (fun acc c => acc.bind fun n => if c.isDigit then some (n * 10 + (c.toNat - 48)) else none)
    (some 0)

/-- Drop leading whitespace characters. -/
def dropLeadingWs : List Char → List Char
  | [] => []
  | c :: cs => if c.isWhitespace then dropLeadingWs cs else c :: cs

/-- JavaScript `String.prototype.trim`: strip whitespace from both ends. -/
def jsTrim (s : String) : String :=
  ⟨(dropLeadingWs (dropLeadingWs s.data).reverse).reverse⟩

/-- Split a character list at its first `'.'` (if any). -/
def splitDigitsDot : List Char → List Char × Option (List Char)
  | [] => ([], none)
  | c :: rest =>
    if c = '.' then ([], some rest)
    else
      let p := splitDigitsDot rest
      (c :: p.1, p.2)

/-- Parse an unsigned decimal literal (`"12"`, `"1."`, `".5"`, `"1.25"`) as an
exact rational; `none` if the characters are not of that shape. -/
def parseUnsignedDec (t : List Char) : Option ℚ :=
  match splitDigitsDot t with
  | (a, none) =>
    if a = [] then none
    else (decDigitsVal a).map fun n => (n : ℚ)
  | (a, some b) =>
    if a = [] ∧ b = [] then none
    else
      match decDigitsVal a, decDigitsVal b with
      | some na, some nb => some ((na : ℚ) + (nb : ℚ) / ((10 : ℚ) ^ b.length))
      | _, _ => none

/-- JavaScript string-to-number conversion (`Number(string)`): surrounding
whitespace is trimmed, the empty string is 0, a signed decimal literal is its
exact value, and anything else is NaN.  (Hex/exponent/`Infinity` forms never
occur on any path verified here and are mapped to NaN.) -/
def parseNum (s : String) : JNum :=
  match (jsTrim s).data with
  | [] => .fin 0
  | '-' :: rest =>
    match parseUnsignedDec rest with
    | some q => .fin (-q)
    | none => .nan
  | '+' :: rest =>
    match parseUnsignedDec rest with
    | some q => .fin q
    | none => .nan
  | t =>
    match parseUnsignedDec t with
    | some q => .fin q
    | none => .nan

namespace JsVal

/-- JavaScript ToNumber (`Number(v)`).  Arrays convert through their string
form (so `Number([]) = 0`, `Number(["5"]) = 5`); plain objects convert to
`"[object Object]"` and hence NaN. -/
def toNumber : JsVal → JNum
  | .vnull => .fin 0
  | .vundefined => .nan
  | .vbool true => .fin 1
  | .vbool false => .fin 0
  | .vnum n => n
  | .vstr s => parseNum s
  | .varr xs => parseNum (arrToString xs)
  | .vobj _ => .nan

/-- A canonical array-index string: nonempty digits with no leading zero. -/
def parseIndex (s : String) : Option ℕ :=
  match s.data with
  | [] => none
  | ['0'] => some 0
  | c :: cs => if c = '0' then none else decDigitsVal (c :: cs)

/-- Computed property access `v[key]`: the key is converted to a string; on
arrays a canonical index string selects the element and `"length"` the
length, on plain objects it is a field lookup, and on every other non-null
value the result is `undefined`.  The sources reach this only through
`d.names && d.names[d.cls]`, which guards the base against null/undefined. -/
def getProp (v key : JsVal) : JsVal :=
  match v with
  | .vobj fields => lookupF fields (jsToString key)
  | .varr xs =>
    let ks := jsToString key
    if ks = "length" then .vnum (.fin xs.length)
    else
      match parseIndex ks with
      | some i => (xs.get? i).getD .vundefined
      | none => .vundefined
  | _ => .vundefined

end JsVal


/-! ## Normalizer — `normalizeResponse` (src/frontend/script.js, lines 267–317) -/

/-- Errors thrown/raised by the modelled JavaScript. -/
inductive JsError where
  | typeError          -- property access on null/undefined
  | uploadTimeout      -- new Error('Upload timeout')
  | networkError       -- new Error('Network error during upload')
  | uploadFailed (status : ℕ)  -- new Error('Upload failed (status S)') / ('Upload failed: S')
  | decodeError        -- bitmap decode (createImageBitmap / Image load) failed
  | noFileError        -- new Error('No file to upload')
deriving DecidableEq, Repr

open JsVal

/-- Line 272: `if (raw && raw.json && (raw.status || raw.res)) raw = raw.json;`
(callers establish `raw` truthy). -/
def effRaw (raw : JsVal) : JsVal :=
  if (getF raw "json").truthy ∧ (jsOr (getF raw "status") (getF raw "res")).truthy then getF raw "json"
  else raw

/-- Lines 275–281: the detected-objects alias chain
`detected_objects` / `detected` / `objects` / `results` / `items`, else the
raw value itself when it is an array, else `[]`. -/
def detectedSource (r : JsVal) : List JsVal :=
  if (getF r "detected_objects").isArr then asArr (getF r "detected_objects")
  else if (getF r "detected").isArr then asArr (getF r "detected")
  else if (getF r "objects").isArr then asArr (getF r "objects")
  else if (getF r "results").isArr then asArr (getF r "results")
  else if (getF r "items").isArr then asArr (getF r "items")
  else asArr r

/-- Lines 284–289: per-detection field normalization.  Property access on a
null/undefined element throws a TypeError (modelled as `.error .typeError`);
otherwise the label, confidence and bounding box are resolved through their
alias chains exactly as the source does. -/
def mapDetection (d : JsVal) : Except JsError JsVal :=
  match d with
  | .vnull => .error .typeError
  | .vundefined => .error .typeError
  | _ =>
    let name := jsOr (getF d "name") (jsOr (getF d "label") (jsOr (getF d "class")
      (jsOr (getF d "type") (jsOr (getF d "item")
        (jsOr (jsAnd (getF d "names") (getProp (getF d "names") (getF d "cls"))) (.vstr "item"))))))
    let conf :=
      if (getF d "conf").isUndefined then
        if (getF d "confidence").isUndefined then
          if (getF d "score").isUndefined then
            if (getF d "probability").isUndefined then JsVal.vnum (.fin 0)
            else getF d "probability"
          else getF d "score"
        else getF d "confidence"
      else getF d "conf"
    let bbox := jsOr (getF d "bbox") (jsOr (getF d "xyxy") (jsOr (getF d "box") .vnull))
    .ok (.vobj [("name", .vstr (jsTrim (jsToString (jsOr name (.vstr ""))))),
                ("conf", .vnum (toNumber (jsOr conf (.vnum (.fin 0))))),
                ("bbox", bbox)])

/-- Lines 292–297: the recommendations alias chain — the first of the array
fields `recommendations` / `recs` / `recommend`, else a truthy singular
`recommendation` or `message` promoted to a one-element array, else `[]`. -/
def recsSource (r : JsVal) : List JsVal :=
  if (getF r "recommendations").isArr then asArr (getF r "recommendations")
  else if (getF r "recs").isArr then asArr (getF r "recs")
  else if (getF r "recommend").isArr then asArr (getF r "recommend")
  else if (getF r "recommendation").truthy then [getF r "recommendation"]
  else if (getF r "message").truthy then [getF r "message"]
  else []

/-- Line 301: the generic recommendation synthesized per detected item:
`` `${d.name} — Unknown: please consult local recycling rules` ``. -/
def synthRec (d : JsVal) : JsVal :=
  .vstr (jsToString (getF d "name") ++ " — Unknown: please consult local recycling rules")

/-- Line 270: the default returned for a falsy raw input.  Note it carries
neither a `filename` nor a `debug` field. -/
def nullDefault : JsVal :=
  .vobj [("success", .vbool false), ("detected_objects", .varr []),
         ("recommendations", .varr []), ("eco_points", .vnum (.fin 0)),
         ("carbon_saved_kg", .vnum (.fin 0))]

/-- Lines 292–316 of `normalizeResponse`, once the detections have been
mapped: the recommendations fallback and the assembled return object. -/
def normalizedBody (r : JsVal) (detected : List JsVal) : JsVal :=
  -- line 300: `if (!recs.length && detected.length)`
  let recs0 := recsSource r
  let recs := if recs0.length = 0 ∧ detected.length ≠ 0 then detected.map synthRec else recs0
  -- line 304: `raw.eco_points !== undefined ? raw.eco_points : raw.points || raw.points_earned || 0`
  let ecoPts := if (getF r "eco_points").isUndefined
    then jsOr (getF r "points") (jsOr (getF r "points_earned") (.vnum (.fin 0)))
    else getF r "eco_points"
  -- line 305
  let carbon := if (getF r "carbon_saved_kg").isUndefined
    then jsOr (getF r "carbon") (.vnum (.fin 0))
    else getF r "carbon_saved_kg"
  -- line 306: `raw.filename || raw.file || ''`
  let fname := jsOr (getF r "filename") (jsOr (getF r "file") (.vstr ""))
  -- line 309
  let succ := if (getF r "success").isUndefined then JsVal.vbool true else getF r "success"
  -- line 315: `raw.debug || { model_loaded: raw.model_loaded || false, detections_count: detected.length }`
  let dbg := jsOr (getF r "debug")
    (.vobj [("model_loaded", jsOr (getF r "model_loaded") (.vbool false)),
            ("detections_count", .vnum (.fin detected.length))])
  .vobj [("success", succ), ("detected_objects", .varr detected),
         ("recommendations", .varr recs), ("eco_points", ecoPts),
         ("carbon_saved_kg", carbon), ("filename", fname), ("debug", dbg)]

/-- `normalizeResponse` (script.js lines 267–317).  Total except for the
TypeError raised when a detection element is null/undefined. -/
def normalizeResponse (raw : JsVal) : Except JsError JsVal :=
  if ¬ raw.truthy then .ok nullDefault
  else
    match (detectedSource (effRaw raw)).mapM mapDetection with
    | .error e => .error e
    | .ok detected => .ok (normalizedBody (effRaw raw) detected)

/-! ## Codec — `compressImage` (analyze.js, lines 140–170) and
`maybeCompress` (script.js, lines 207–227)

`canvas.toBlob` is modelled by a caller-supplied encoding function
`enc : ℕ → ℕ → ℚ → Option ℕ` giving the byte length of the JPEG produced
from a `w × h` canvas at a given quality (`none` models `toBlob` yielding a
null blob).  Bitmap decoding (`createImageBitmap` / the Image fallback; both
produce the same surface) is modelled by the `decodable` flag and the natural
pixel dimensions carried by the input file. -/

/-- An input image file: its byte length, natural pixel dimensions, and
whether bitmap decoding succeeds on it. -/
structure ImageFile where
  size : ℕ
  width : ℕ
  height : ℕ
  decodable : Bool
deriving DecidableEq, Repr

/-- `Math.round` on a nonnegative quantity: nearest integer, ties up. -/
def jsRoundNat (q : ℚ) : ℕ := (⌊q + 1 / 2⌋).toNat

/-- The one-time downscale (analyze.js line 158–159, script.js 214–215):
`if (w > maxW) { h = Math.round(h * (maxW / w)); w = maxW; }`. -/
def resizeDims (w h maxW : ℕ) : ℕ × ℕ :=
  if maxW < w then (maxW, jsRoundNat ((h : ℚ) * ((maxW : ℚ) / (w : ℚ)))) else (w, h)

/-- Result of one run of the re-encode loop: the last quality assigned, the
last blob produced (the initial blob if the loop never ran), and the number
of re-encodes performed inside the loop. -/
structure LoopOut where
  quality : ℚ
  blob : Option ℕ
  iters : ℕ
deriving DecidableEq, Repr

/-- The re-encode loop
`while (blob && blob.size > maxBytes && quality > minQ) { quality -= qstep;
blob = await toBlob(quality); }` (analyze.js line 164, script.js 222–225).
The `fuel` argument is an artifact of the embedding: the callers below pass
`compressFuel`, which `toBlobLoop_guard_exit` proves is never exhausted, so
the fuel-zero branch is unreachable and the definition coincides with the
unbounded JavaScript loop. -/
def toBlobLoop (enc : ℚ → Option ℕ) (maxBytes : ℕ) (minQ qstep : ℚ) :
    ℕ → ℚ → Option ℕ → LoopOut
  | 0, q, b => ⟨q, b, 0⟩
  | fuel + 1, q, b =>
    match b with
    | none => ⟨q, none, 0⟩
    | some sz =>
      if maxBytes < sz ∧ minQ < q then
        let r := toBlobLoop enc maxBytes minQ qstep fuel (q - qstep) (enc (q - qstep))
        ⟨r.quality, r.blob, r.iters + 1⟩
      else ⟨q, some sz, 0⟩

/-- `⌈(q0 − minQ)/qstep⌉` as a natural number: the spec's iteration bound. -/
def qualityBound (q0 minQ qstep : ℚ) : ℕ := (⌈(q0 - minQ) / qstep⌉).toNat

/-- Ample fuel for `toBlobLoop`: one more than the guard-exit bound. -/
def compressFuel (q0 minQ qstep : ℚ) : ℕ := qualityBound q0 minQ qstep + 1

/-- What a codec run returns: a freshly encoded blob (with its byte length,
canvas dimensions and the quality last used), or the original input file
unchanged. -/
inductive CompressOut where
  | encoded (size : ℕ) (w h : ℕ) (quality : ℚ)
  | original
deriving DecidableEq, Repr

/-- The body of `compressImage` without its `try/catch` (analyze.js lines
156–165): decode, one-time resize against `maxW`, first encode at quality
0.92, then the re-encode loop down by 0.07 while above 0.35, and
`return blob || file`. -/
def compressImageCore (enc : ℕ → ℕ → ℚ → Option ℕ) (file : ImageFile)
    (maxBytes maxW : ℕ) : Except JsError CompressOut :=
  if file.decodable then
    let dims := resizeDims file.width file.height maxW
    let first := enc dims.1 dims.2 (92 / 100)
    let r := toBlobLoop (enc dims.1 dims.2) maxBytes (35 / 100) (7 / 100)
      (compressFuel (92 / 100) (35 / 100) (7 / 100)) (92 / 100) first
    match r.blob with
    | some sz => .ok (.encoded sz dims.1 dims.2 r.quality)
    | none => .ok .original
  else .error .decodeError

/-- `compressImage(file, maxBytes = 12 MiB, maxW = 1200)` (analyze.js lines
155–170): the whole body is wrapped in `try/catch`, and the catch returns the
original file. -/
def compressImage (enc : ℕ → ℕ → ℚ → Option ℕ) (file : ImageFile)
    (maxBytes maxW : ℕ) : CompressOut :=
  match compressImageCore enc file maxBytes maxW with
  | .ok r => r
  | .error _ => .original

/-- `maybeCompress(file)` (script.js lines 207–227): throws on a missing
file; returns files of at most 1.5·1024·1024 bytes unchanged without
decoding; otherwise decodes (errors propagate — there is no `try/catch`
here), resizes against `MAX_W = 1600`, first-encodes at quality 0.9 and
re-encodes down by 0.07 while the byte length exceeds
`MAX_IMAGE_SIZE = 8·1024·1024` and quality exceeds 0.35, finally
`return blob || file`. -/
def maybeCompress (enc : ℕ → ℕ → ℚ → Option ℕ) (file : Option ImageFile) :
    Except JsError CompressOut :=
  match file with
  | none => .error .noFileError
  | some f =>
    if f.size ≤ 1572864 then .ok .original
    else if f.decodable then
      let dims := resizeDims f.width f.height 1600
      let first := enc dims.1 dims.2 (9 / 10)
      let r := toBlobLoop (enc dims.1 dims.2) (8 * 1024 * 1024) (35 / 100) (7 / 100)
        (compressFuel (9 / 10) (35 / 100) (7 / 100)) (9 / 10) first
      match r.blob with
      | some sz => .ok (.encoded sz dims.1 dims.2 r.quality)
      | none => .ok .original
    else .error .decodeError

/-! ## Transport — `uploadWithProgress` (script.js, lines 244–264) and
`uploadFileWithProgress` (analyze.js, lines 172–191)

Both use an XHR with `responseType = 'json'`, an explicit abort timer, and
an error handler.  A run of one upload is summarized by the single terminal
transport event it observes: `load` with an HTTP status and the parsed JSON
body (`vnull` when the body is not parseable JSON, exactly what
`xhr.response` holds then), a network error, or the abort-timer firing. -/

/-- The terminal transport event of one upload attempt. -/
inductive TransportEvent where
  | load (status : ℕ) (body : JsVal)
  | netError
  | timeout

/-- How the promise of one upload call settles. -/
inductive XhrOutcome where
  | settledOk (v : JsVal)
  | settledErr (e : JsError)
  | unsettled

/-- `uploadWithProgress` (script.js 244–264): on a 2xx status it resolves
`xhr.response || xhr.responseText || {}` — but since `responseType` is
`'json'`, reading `xhr.responseText` throws an `InvalidStateError`, so when
the parsed body is falsy the `onload` handler throws after the timer was
cleared and the promise never settles (`unsettled`).  On a non-2xx status it
always rejects `new Error('Upload failed (status S)')`, never inspecting the
body.  Timer firing rejects `'Upload timeout'`; `onerror` rejects
`'Network error during upload'`. -/
def uploadWithProgress : TransportEvent → XhrOutcome
  | .timeout => .settledErr .uploadTimeout
  | .netError => .settledErr .networkError
  | .load st body =>
    if 200 ≤ st ∧ st < 300 then
      if body.truthy then .settledOk body else .unsettled
    else .settledErr (.uploadFailed st)

/-- `uploadFileWithProgress` (analyze.js 172–191): a 2xx status resolves
`xhr.response` as-is (possibly `null`).  A non-2xx status runs
`try { const parsed = xhr.response || JSON.parse(xhr.responseText || '{}');
resolve(parsed); } catch { reject(...) }`: a truthy parsed body is resolved;
otherwise reading `xhr.responseText` (forbidden under `responseType 'json'`)
throws into the catch, which rejects `'Upload failed: S'`. -/
def uploadFileWithProgress : TransportEvent → Except JsError JsVal
  | .timeout => .error .uploadTimeout
  | .netError => .error .networkError
  | .load st body =>
    if 200 ≤ st ∧ st < 300 then .ok body
    else if body.truthy then .ok body
    else .error (.uploadFailed st)

/-! ## Orchestrators — `analyzeImage` (script.js, lines 168–205) and the
analyze-button click handler (analyze.js, lines 200–248)

Both are modelled from the point where the upload has been dispatched: the
earlier stages (validation, compression) do not affect the claims below,
which are about how a transport outcome is translated for the caller/UI. -/

/-- What `analyzeImage`'s try/catch leaves on screen for one upload outcome. -/
inductive AnalyzeOutcome where
  | rendered (data : JsVal)     -- renderResults(normalizeResponse(result))
  | failureShown (e : JsError)  -- catch: '❌ Analysis failed — …'
  | hung                        -- the upload promise never settled

/-- `analyzeImage` (script.js 168–205), upload stage onwards: a resolved
upload is normalized and rendered; a rejected upload reaches the catch
block, which only renders the error message (the Normalizer is not
invoked and no result is fabricated).  An exception thrown inside
`normalizeResponse` also reaches the catch. -/
def analyzeImage (ev : TransportEvent) : AnalyzeOutcome :=
  match uploadWithProgress ev with
  | .unsettled => .hung
  | .settledErr e => .failureShown e
  | .settledOk v =>
    match normalizeResponse v with
    | .error e => .failureShown e
    | .ok d => .rendered d

open JsVal

/-- `typeof v === 'object'` (true for null, arrays and plain objects). -/
def isObjectType : JsVal → Bool
  | .vnull => true
  | .varr _ => true
  | .vobj _ => true
  | _ => false

/-- Replace-or-append assignment `obj[k] = v` on an association list. -/
def objSet : List (String × JsVal) → String → JsVal → List (String × JsVal)
  | [], k, v => [(k, v)]
  | (k', v') :: rest, k, v =>
    if k' = k then (k, v) :: rest else (k', v') :: objSet rest k v

/-- analyze.js lines 229–231:
`const data = res && typeof res === 'object' ? res : {};`
`data.detected_objects = data.detected_objects || data.detected || data.items
|| data.objects || data.results || [];`  (A named-property assignment on an
array value is invisible to every later read modelled here and is dropped.) -/
def augmentDetected (res : JsVal) : JsVal :=
  let data := if res.truthy ∧ isObjectType res then res else .vobj []
  let dv := jsOr (getF data "detected_objects") (jsOr (getF data "detected")
    (jsOr (getF data "items") (jsOr (getF data "objects")
      (jsOr (getF data "results") (.varr [])))))
  match data with
  | .vobj fields => .vobj (objSet fields "detected_objects" dv)
  | other => other

/-- analyze.js line 334: the sample result fabricated by `showMockResult`. -/
def mockResult : JsVal :=
  .vobj [("detected_objects", .varr [.vobj [("name", .vstr "bottle"), ("points", .vnum (.fin 10))]]),
         ("carbon_saved_kg", .vnum (.fin (1 / 2))),
         ("recommendations", .varr [.vstr "Recycle the bottle at nearest center"]),
         ("eco_points", .vnum (.fin 5))]

/-- What the analyze-button click handler leaves on screen. -/
inductive ClickOutcome where
  | rendered (data : JsVal)                    -- renderResults(data)
  | errorThenMock (e : JsError) (mock : JsVal) -- catch: error text, then showMockResult()

/-- The analyze-button click handler (analyze.js 200–248), upload stage
onwards: a resolved upload is patched by `augmentDetected` and rendered; a
rejected upload reaches the catch, which renders `'Server error: …'` and
then, 600 ms later, renders the fabricated `mockResult` via
`showMockResult()`. -/
def analyzeClickHandler (ev : TransportEvent) : ClickOutcome :=
  match uploadFileWithProgress ev with
  | .ok res => .rendered (augmentDetected res)
  | .error e => .errorThenMock e mockResult

/-! ## Observation helpers used by the claim statements -/

/-- Does the normalized value satisfy `debug.detections_count ==
detected_objects.length` (the §3 invariant, in the source's field names)? -/
def detCountMatches (out : JsVal) : Bool :=
  match getF (getF out "debug") "detections_count" with
  | .vnum (.fin q) => decide (q = ((asArr (getF out "detected_objects")).length : ℚ))
  | _ => false

/-- Does a normalization result carry a (non-undefined) `filename` field? -/
def hasFilename : Except JsError JsVal → Bool
  | .ok v => !(getF v "filename").isUndefined
  | .error _ => false

/-- The first recommendation string of a normalization result (else `""`). -/
def firstRec : Except JsError JsVal → String
  | .ok v =>
    match getF v "recommendations" with
    | .varr (.vstr s :: _) => s
    | _ => ""
  | .error _ => ""

/-! ## Concrete values used by individual claims -/

/-- A raw response carrying an upstream `debug` object whose count disagrees
with its (empty) detections list. -/
def c1raw : JsVal :=
  .vobj [("detected_objects", .varr []),
         ("debug", .vobj [("detections_count", .vnum (.fin 5))])]

/-- The value `normalizeResponse` actually produces for `c1raw`. -/
def c1out : JsVal :=
  .vobj [("success", .vbool true), ("detected_objects", .varr []),
         ("recommendations", .varr []), ("eco_points", .vnum (.fin 0)),
         ("carbon_saved_kg", .vnum (.fin 0)), ("filename", .vstr ""),
         ("debug", .vobj [("detections_count", .vnum (.fin 5))])]

/-- A raw response with one detection and no recommendations. -/
def c5raw : JsVal :=
  .vobj [("detected_objects", .varr [.vobj [("name", .vstr "bottle"),
                                            ("confidence", .vnum (.fin 1))]])]

/-- The value `normalizeResponse` actually produces for `c5raw`. -/
def c5out : JsVal :=
  .vobj [("success", .vbool true),
         ("detected_objects", .varr [.vobj [("name", .vstr "bottle"),
                                            ("conf", .vnum (.fin 1)),
                                            ("bbox", .vnull)]]),
         ("recommendations", .varr [.vstr "bottle — Unknown: please consult local recycling rules"]),
         ("eco_points", .vnum (.fin 0)), ("carbon_saved_kg", .vnum (.fin 0)),
         ("filename", .vstr ""),
         ("debug", .vobj [("model_loaded", .vbool false),
                          ("detections_count", .vnum (.fin 1))])]

/-- The quality at which a codec result was encoded (if it was encoded). -/
def outQuality : CompressOut → Option ℚ
  | .encoded _ _ _ q => some q
  | .original => none

/-- A normalized detection that survives a second normalization pass
unchanged: the canonical `{name, conf, bbox}` shape with a non-empty,
already-trimmed name, a non-NaN confidence, and a truthy-or-null bounding
box.  (A re-pass turns an empty name into `"item"` and a NaN confidence into
0, which is why these two conditions are needed.) -/
def goodDet : JsVal → Bool
  | .vobj [("name", .vstr n), ("conf", .vnum (.fin _)), ("bbox", b)] =>
    decide (n ≠ "") && decide (jsTrim n = n) && (b.truthy || b.isNull)
  | _ => false

/-- All detections of a normalized result are re-pass-stable. -/
def goodOut (out : JsVal) : Bool :=
  (asArr (getF out "detected_objects")).all goodDet

/-- A raw response with one aliased detection, used to witness idempotence. -/
def c9raw : JsVal :=
  .vobj [("detected_objects", .varr [.vobj [("name", .vstr "tin")]])]

/-- The value `normalizeResponse` actually produces for `c9raw`. -/
def c9out : JsVal :=
  .vobj [("success", .vbool true),
         ("detected_objects", .varr [.vobj [("name", .vstr "tin"),
                                            ("conf", .vnum (.fin 0)),
                                            ("bbox", .vnull)]]),
         ("recommendations", .varr [.vstr "tin — Unknown: please consult local recycling rules"]),
         ("eco_points", .vnum (.fin 0)), ("carbon_saved_kg", .vnum (.fin 0)),
         ("filename", .vstr ""),
         ("debug", .vobj [("model_loaded", .vbool false),
                          ("detections_count", .vnum (.fin 1))])]

/-! ## C2 — the null/undefined default shape -/

/-- The full canonical default the claim asserts for null input, written in
the source's field names (`detections` ↦ `detected_objects`, `ecoPoints` ↦
`eco_points`, `carbonSavedKg` ↦ `carbon_saved_kg`, `diagnostics` ↦ `debug`,
`modelLoaded` ↦ `model_loaded`, `detectionCount` ↦ `detections_count`). -/
def claimedNullDefault : JsVal :=
  .vobj [("success", .vbool false), ("detected_objects", .varr []),
         ("recommendations", .varr []), ("eco_points", .vnum (.fin 0)),
         ("carbon_saved_kg", .vnum (.fin 0)), ("filename", .vstr ""),
         ("debug", .vobj [("model_loaded", .vbool false), ("detections_count", .vnum (.fin 0))])]

/-- C2, counterexample: `normalizeResponse null` is not the claimed full
canonical default — the value actually returned carries no `filename` and no
`debug`/diagnostics field at all. -/
theorem c2_null_default_cex :
    getF nullDefault "filename" = .vundefined ∧ getF nullDefault "debug" = .vundefined ∧
    normalizeResponse .vnull ≠ .ok claimedNullDefault := by
  refine ⟨rfl, rfl, fun h => absurd (congrArg hasFilename h) (by decide)⟩

/-- C2, amended: `normalizeResponse` on `null` and on `undefined` returns
exactly `{success:false, detected_objects:[], recommendations:[],
eco_points:0, carbon_saved_kg:0}` — without the `filename` and
`debug`/diagnostics fields the claim includes. -/
theorem c2_null_default_amended :
    normalizeResponse .vnull = .ok nullDefault ∧
    normalizeResponse .vundefined = .ok nullDefault :=
  ⟨rfl, rfl⟩

/-! ## C9 — idempotence of normalization -/

/-- C9, counterexample: normalization is not idempotent at the raw input
`null` — the second pass adds the `filename` and `debug` fields that the
null default lacks, so `normalize (normalize null) ≠ normalize null`. -/
theorem c9_idempotence_cex :
    (normalizeResponse .vnull).bind normalizeResponse ≠ normalizeResponse .vnull :=
  fun h => absurd (congrArg hasFilename h) (by decide)

/-! ## C10 — small files bypass compression -/

/-- C10: every present input file of at most 1.5·1024·1024 bytes is returned
by `maybeCompress` unchanged, whatever its pixel dimensions and even if it
could not be decoded — the size check precedes decoding, resizing and
re-encoding. -/
theorem c10_small_file_bypass (enc : ℕ → ℕ → ℚ → Option ℕ) (f : ImageFile)
    (h : f.size ≤ 1572864) :
    maybeCompress enc (some f) = .ok .original := by
  simp [maybeCompress, h]

/-- C10, witness: a 1000-byte, 5000×5000, undecodable file is passed through. -/
theorem c10_small_file_bypass_witness :
    (1000 : ℕ) ≤ 1572864 ∧
    maybeCompress (fun _ _ _ => none) (some ⟨1000, 5000, 5000, false⟩) = .ok .original :=
  ⟨by decide, c10_small_file_bypass _ _ (by decide)⟩

/-! ## C3 — transport failure handling in the two orchestrators -/

/-- C3, counterexample: in the analyze.js click handler, an upload timeout is
not merely surfaced as an error — after rendering the error text the handler
renders the fabricated sample result `mockResult` (`showMockResult`), so the
failure IS converted into a fabricated result.  (Likewise for a network
error.) -/
theorem c3_failure_cex :
    analyzeClickHandler .timeout = .errorThenMock .uploadTimeout mockResult ∧
    analyzeClickHandler .netError = .errorThenMock .networkError mockResult :=
  ⟨rfl, rfl⟩

/-- C3, amended: in script.js's `analyzeImage` an upload timeout or network
error is surfaced as exactly that error and nothing is rendered (the
Normalizer is never invoked — the outcome is `failureShown`, not
`rendered`); in analyze.js's click handler the error is shown but is then
followed by rendering the fabricated `mockResult`. -/
theorem c3_failure_amended :
    analyzeImage .timeout = .failureShown .uploadTimeout ∧
    analyzeImage .netError = .failureShown .networkError ∧
    analyzeClickHandler .timeout = .errorThenMock .uploadTimeout mockResult ∧
    analyzeClickHandler .netError = .errorThenMock .networkError mockResult :=
  ⟨rfl, rfl, rfl, rfl⟩

/-! ## C4 — non-2xx responses with parseable bodies -/

/-- C4, counterexample: script.js's `uploadWithProgress` rejects a non-2xx
response even when its body parsed as structured JSON — status 500 with the
parsed body `{error: "Server error"}` is rejected as `Upload failed
(status 500)` rather than resolved with the body. -/
theorem c4_non2xx_cex :
    uploadWithProgress (.load 500 (.vobj [("error", .vstr "Server error")])) =
      .settledErr (.uploadFailed 500) :=
  rfl

/-- C4, amended: only analyze.js's `uploadFileWithProgress` resolves a
non-2xx response with its parsed body, and only when that body is truthy
(when the body is unparsable — or parses to a falsy value — it rejects with
upload-failed); script.js's `uploadWithProgress` instead rejects every
non-2xx response with upload-failed regardless of the body. -/
theorem c4_non2xx_amended (st : ℕ) (body : JsVal) (hst : ¬ (200 ≤ st ∧ st < 300)) :
    (body.truthy = true → uploadFileWithProgress (.load st body) = .ok body) ∧
    (body.truthy = false → uploadFileWithProgress (.load st body) = .error (.uploadFailed st)) ∧
    uploadWithProgress (.load st body) = .settledErr (.uploadFailed st) := by
  refine ⟨fun ht => ?_, fun ht => ?_, ?_⟩
  · simp [uploadFileWithProgress, hst, ht]
  · simp [uploadFileWithProgress, hst, ht]
  · simp [uploadWithProgress, hst]

/-- C4, witness: at status 404 with the truthy parsed body `{ok: true}`,
analyze.js resolves with the body and script.js rejects. -/
theorem c4_non2xx_amended_witness :
    uploadFileWithProgress (.load 404 (.vobj [("ok", .vbool true)])) =
      .ok (.vobj [("ok", .vbool true)]) ∧
    uploadWithProgress (.load 404 (.vobj [("ok", .vbool true)])) =
      .settledErr (.uploadFailed 404) :=
  ⟨(c4_non2xx_amended 404 (.vobj [("ok", .vbool true)]) (by decide)).1 rfl,
   (c4_non2xx_amended 404 (.vobj [("ok", .vbool true)]) (by decide)).2.2⟩


/-! ## Structural lemmas about `normalizeResponse` -/

/-- Inversion: a successful normalization of a truthy raw input is exactly
the assembled body over the mapped detections. -/
theorem normalize_ok_inv (raw out : JsVal) (htr : raw.truthy = true)
    (h : normalizeResponse raw = .ok out) :
    ∃ detected, (detectedSource (effRaw raw)).mapM mapDetection = .ok detected ∧
      out = normalizedBody (effRaw raw) detected := by
  rw [normalizeResponse, if_neg (by simp [htr])] at h
  rcases hm : ((detectedSource (effRaw raw)).mapM mapDetection) with e | detected
  · rw [hm] at h; exact absurd h (by simp)
  · rw [hm] at h
    exact ⟨detected, rfl, (Except.ok.inj h).symm⟩

theorem body_getF_success (r : JsVal) (d : List JsVal) :
    getF (normalizedBody r d) "success" =
      (if (getF r "success").isUndefined then JsVal.vbool true else getF r "success") := by
  simp [normalizedBody, getF, lookupF]

theorem body_getF_detected (r : JsVal) (d : List JsVal) :
    getF (normalizedBody r d) "detected_objects" = .varr d := by
  simp [normalizedBody, getF, lookupF]

theorem body_getF_recs (r : JsVal) (d : List JsVal) :
    getF (normalizedBody r d) "recommendations" =
      .varr (if (recsSource r).length = 0 ∧ d.length ≠ 0 then d.map synthRec else recsSource r) := by
  simp [normalizedBody, getF, lookupF]

theorem body_getF_eco (r : JsVal) (d : List JsVal) :
    getF (normalizedBody r d) "eco_points" =
      (if (getF r "eco_points").isUndefined
        then jsOr (getF r "points") (jsOr (getF r "points_earned") (.vnum (.fin 0)))
        else getF r "eco_points") := by
  simp [normalizedBody, getF, lookupF]

theorem body_getF_carbon (r : JsVal) (d : List JsVal) :
    getF (normalizedBody r d) "carbon_saved_kg" =
      (if (getF r "carbon_saved_kg").isUndefined
        then jsOr (getF r "carbon") (.vnum (.fin 0))
        else getF r "carbon_saved_kg") := by
  simp [normalizedBody, getF, lookupF]

theorem body_getF_filename (r : JsVal) (d : List JsVal) :
    getF (normalizedBody r d) "filename" =
      jsOr (getF r "filename") (jsOr (getF r "file") (.vstr "")) := by
  simp [normalizedBody, getF, lookupF]

theorem body_getF_debug (r : JsVal) (d : List JsVal) :
    getF (normalizedBody r d) "debug" =
      jsOr (getF r "debug")
        (.vobj [("model_loaded", jsOr (getF r "model_loaded") (.vbool false)),
                ("detections_count", .vnum (.fin d.length))]) := by
  simp [normalizedBody, getF, lookupF]

/-! ## C1 — is `debug.detections_count` always recomputed? -/


/-- C1, counterexample: line 315 reads `debug: raw.debug || {…}`, so a truthy
upstream `debug` object is passed through verbatim — normalizing `c1raw`
yields `debug.detections_count = 5` while `detected_objects` is empty, so
`detectionCount == length(detections)` fails: the count WAS taken from the
upstream debug object. -/
theorem c1_count_recompute_cex :
    normalizeResponse c1raw = .ok c1out ∧ detCountMatches c1out = false :=
  ⟨rfl, by decide⟩

/-- C1, amended: `detectionCount == length(detections)` holds for every
truthy raw input whose (unwrapped) `debug` field is absent or falsy; when
the upstream `debug` is truthy it is passed through verbatim instead of
being recomputed (so an upstream object can break the invariant, as the
counterexample shows). -/
theorem c1_count_recompute_amended (raw out : JsVal)
    (htr : raw.truthy = true)
    (h : normalizeResponse raw = .ok out) :
    ((getF (effRaw raw) "debug").truthy = false → detCountMatches out = true) ∧
    ((getF (effRaw raw) "debug").truthy = true →
      getF out "debug" = getF (effRaw raw) "debug") := by
  obtain ⟨detected, hm, hout⟩ := normalize_ok_inv raw out htr h
  subst hout
  constructor
  · intro hdbg
    have hd : getF (normalizedBody (effRaw raw) detected) "debug" =
        .vobj [("model_loaded", jsOr (getF (effRaw raw) "model_loaded") (.vbool false)),
               ("detections_count", .vnum (.fin detected.length))] := by
      rw [body_getF_debug]; simp [jsOr, hdbg]
    simp only [detCountMatches, hd, body_getF_detected]
    simp [getF, lookupF, asArr]
  · intro hdbg
    rw [body_getF_debug]
    simp [jsOr, hdbg]

/-- C1, witness: a raw input with one detection and no debug field gets a
recomputed, matching count. -/
theorem c1_count_recompute_amended_witness :
    detCountMatches
      ((normalizeResponse
          (.vobj [("detected_objects", .varr [.vobj [("name", .vstr "can")]])])).toOption.getD
        .vnull) = true :=
  (c1_count_recompute_amended
    (.vobj [("detected_objects", .varr [.vobj [("name", .vstr "can")]])]) _ rfl rfl).1 rfl

/-! ## C5 — synthesized recommendations -/


/-- C5, counterexample: the synthesized recommendation for a detected
"bottle" is `"bottle — Unknown: please consult local recycling rules"`, not
the claimed exact form `"bottle — consult local disposal guidance."`. -/
theorem c5_rec_wording_cex :
    firstRec (normalizeResponse c5raw) =
      "bottle — Unknown: please consult local recycling rules" ∧
    firstRec (normalizeResponse c5raw) ≠ "bottle — consult local disposal guidance." := by
  exact ⟨rfl, by decide⟩

/-- C5, amended: when the recommendations alias chain resolves to an empty
list, exactly one generic recommendation per detected label is synthesized —
but of the form `"<label> — Unknown: please consult local recycling rules"`
(not the claimed wording); when both detections and recommendations are
empty, recommendations stays empty. -/
theorem c5_rec_synthesis_amended (raw out : JsVal)
    (htr : raw.truthy = true)
    (h : normalizeResponse raw = .ok out)
    (hempty : recsSource (effRaw raw) = []) :
    (∀ d : JsVal, synthRec d =
      .vstr (jsToString (getF d "name") ++ " — Unknown: please consult local recycling rules")) ∧
    (asArr (getF out "detected_objects") ≠ [] →
      getF out "recommendations" =
        .varr ((asArr (getF out "detected_objects")).map synthRec)) ∧
    (asArr (getF out "detected_objects") = [] →
      getF out "recommendations" = .varr []) := by
  obtain ⟨detected, hm, hout⟩ := normalize_ok_inv raw out htr h
  subst hout
  refine ⟨fun d => rfl, ?_, ?_⟩
  · intro hne
    rw [body_getF_detected] at hne ⊢
    rw [body_getF_recs, hempty]
    simp only [asArr] at hne ⊢
    simp [List.length_eq_zero, hne]
  · intro heq
    rw [body_getF_detected] at heq
    rw [body_getF_recs, hempty]
    simp only [asArr] at heq
    subst heq
    simp

/-- C5, witness: for `c5raw` (one "bottle" detection, empty recommendation
aliases) the normalized recommendations are exactly the one synthesized
string. -/
theorem c5_rec_synthesis_amended_witness :
    getF c5out "recommendations" =
      .varr [.vstr "bottle — Unknown: please consult local recycling rules"] := by
  have h := (c5_rec_synthesis_amended c5raw c5out rfl rfl rfl).2.1
    (fun hh => absurd (congrArg List.length hh) (by decide))
  rw [h]
  rfl

/-! ## Lemmas about the re-encode loop -/

theorem qualityBound_of_le (minQ qstep q : ℚ) (hstep : 0 < qstep) (h : q ≤ minQ) :
    qualityBound q minQ qstep = 0 := by
  unfold qualityBound
  have : (q - minQ) / qstep ≤ 0 :=
    div_nonpos_of_nonpos_of_nonneg (by linarith) (le_of_lt hstep)
  have hc : ⌈(q - minQ) / qstep⌉ ≤ 0 := Int.ceil_le.mpr (by exact_mod_cast this)
  omega

theorem qualityBound_pos (minQ qstep q : ℚ) (hstep : 0 < qstep) (h : minQ < q) :
    1 ≤ qualityBound q minQ qstep := by
  unfold qualityBound
  have : (0 : ℚ) < (q - minQ) / qstep := div_pos (by linarith) hstep
  have hc : (1 : ℤ) ≤ ⌈(q - minQ) / qstep⌉ := by
    exact_mod_cast Int.le_ceil_iff.mpr (by push_cast; linarith)
  omega

theorem qualityBound_step (minQ qstep q : ℚ) (hstep : 0 < qstep) (h : minQ < q) :
    qualityBound (q - qstep) minQ qstep = qualityBound q minQ qstep - 1 := by
  unfold qualityBound
  have harith : (q - qstep - minQ) / qstep = (q - minQ) / qstep - 1 := by
    field_simp
    ring
  rw [harith, Int.ceil_sub_one]
  have : (1 : ℤ) ≤ ⌈(q - minQ) / qstep⌉ := by
    have : (0 : ℚ) < (q - minQ) / qstep := div_pos (by linarith) hstep
    exact_mod_cast Int.le_ceil_iff.mpr (by push_cast; linarith)
  omega

/-- The loop performs at most `⌈(q − minQ)/qstep⌉` re-encodes. -/
theorem toBlobLoop_iters_le (enc : ℚ → Option ℕ) (maxB : ℕ) (minQ qstep : ℚ)
    (hstep : 0 < qstep) :
    ∀ fuel (q : ℚ) (b : Option ℕ),
      (toBlobLoop enc maxB minQ qstep fuel q b).iters ≤ qualityBound q minQ qstep := by
  intro fuel
  induction fuel with
  | zero => intro q b; simp [toBlobLoop]
  | succ f ih =>
    intro q b
    match b with
    | none => simp [toBlobLoop]
    | some sz =>
      simp only [toBlobLoop]
      split
      · next hcond =>
        have hq : minQ < q := hcond.2
        have h1 := ih (q - qstep) (enc (q - qstep))
        have h2 := qualityBound_step minQ qstep q hstep hq
        have h3 := qualityBound_pos minQ qstep q hstep hq
        simp only []
        omega
      · simp

/-- Every quality the loop ends at lies on the arithmetic sequence
`q − k·qstep` where `k` is the number of re-encodes performed. -/
theorem toBlobLoop_quality_eq (enc : ℚ → Option ℕ) (maxB : ℕ) (minQ qstep : ℚ) :
    ∀ fuel (q : ℚ) (b : Option ℕ),
      (toBlobLoop enc maxB minQ qstep fuel q b).quality =
        q - (toBlobLoop enc maxB minQ qstep fuel q b).iters * qstep := by
  intro fuel
  induction fuel with
  | zero => intro q b; simp [toBlobLoop]
  | succ f ih =>
    intro q b
    match b with
    | none => simp [toBlobLoop]
    | some sz =>
      simp only [toBlobLoop]
      split
      · next hcond =>
        have h1 := ih (q - qstep) (enc (q - qstep))
        simp only []
        rw [h1]
        push_cast
        ring
      · simp

/-- The final quality never drops to `minQ − qstep` or below: each decrement
happens only from a quality strictly above `minQ`. -/
theorem toBlobLoop_quality_gt (enc : ℚ → Option ℕ) (maxB : ℕ) (minQ qstep : ℚ) :
    ∀ fuel (q : ℚ) (b : Option ℕ), minQ - qstep < q →
      minQ - qstep < (toBlobLoop enc maxB minQ qstep fuel q b).quality := by
  intro fuel
  induction fuel with
  | zero => intro q b h; simpa [toBlobLoop] using h
  | succ f ih =>
    intro q b h
    match b with
    | none => simpa [toBlobLoop] using h
    | some sz =>
      simp only [toBlobLoop]
      split
      · next hcond =>
        exact ih (q - qstep) (enc (q - qstep)) (by linarith [hcond.2])
      · simpa using h

/-- With more than `⌈(q − minQ)/qstep⌉` units of fuel the loop always exits
through its own guard (never by fuel exhaustion): at the exit the blob is
null, or fits the budget, or the quality has reached `minQ` or below. -/
theorem toBlobLoop_guard_exit (enc : ℚ → Option ℕ) (maxB : ℕ) (minQ qstep : ℚ)
    (hstep : 0 < qstep) :
    ∀ fuel (q : ℚ) (b : Option ℕ), qualityBound q minQ qstep < fuel →
      (toBlobLoop enc maxB minQ qstep fuel q b).blob = none ∨
      (∃ sz, (toBlobLoop enc maxB minQ qstep fuel q b).blob = some sz ∧ sz ≤ maxB) ∨
      (toBlobLoop enc maxB minQ qstep fuel q b).quality ≤ minQ := by
  intro fuel
  induction fuel with
  | zero => intro q b h; omega
  | succ f ih =>
    intro q b hfuel
    match b with
    | none => simp [toBlobLoop]
    | some sz =>
      simp only [toBlobLoop]
      split
      · next hcond =>
        have hq : minQ < q := hcond.2
        have h2 := qualityBound_step minQ qstep q hstep hq
        have h3 := qualityBound_pos minQ qstep q hstep hq
        exact ih (q - qstep) (enc (q - qstep)) (by omega)
      · next hcond =>
        rcases not_and_or.mp hcond with hsz | hq
        · exact Or.inr (Or.inl ⟨sz, rfl, by omega⟩)
        · exact Or.inr (Or.inr (by simpa using le_of_not_lt hq))

/-- When every encode exceeds the budget, the loop performs exactly
`⌈(q − minQ)/qstep⌉` re-encodes and stops at quality
`q − ⌈(q − minQ)/qstep⌉·qstep` — the first member of the quality sequence
that is `≤ minQ`. -/
theorem toBlobLoop_never_fits (enc : ℚ → Option ℕ) (maxB : ℕ) (minQ qstep : ℚ)
    (hstep : 0 < qstep)
    (henc : ∀ q', ∃ sz, enc q' = some sz ∧ maxB < sz) :
    ∀ fuel (q : ℚ) (sz0 : ℕ), maxB < sz0 → qualityBound q minQ qstep < fuel →
      ∃ szf, maxB < szf ∧
        toBlobLoop enc maxB minQ qstep fuel q (some sz0) =
          ⟨q - qualityBound q minQ qstep * qstep, some szf, qualityBound q minQ qstep⟩ := by
  intro fuel
  induction fuel with
  | zero => intro q sz0 h hfuel; omega
  | succ f ih =>
    intro q sz0 hsz0 hfuel
    by_cases hq : minQ < q
    · have h2 := qualityBound_step minQ qstep q hstep hq
      have h3 := qualityBound_pos minQ qstep q hstep hq
      obtain ⟨sz1, he1, hb1⟩ := henc (q - qstep)
      obtain ⟨szf, hf, hrec⟩ := ih (q - qstep) sz1 hb1 (by omega)
      refine ⟨szf, hf, ?_⟩
      have hcast : ((qualityBound (q - qstep) minQ qstep : ℕ) : ℚ) =
          (qualityBound q minQ qstep : ℚ) - 1 := by
        rw [h2]; push_cast [Nat.cast_sub h3]; ring
      simp only [toBlobLoop, if_pos (And.intro hsz0 hq)]
      rw [he1, hrec]
      simp only [LoopOut.mk.injEq]
      refine ⟨by rw [hcast]; ring, trivial, by omega⟩
    · refine ⟨sz0, hsz0, ?_⟩
      have hb0 : qualityBound q minQ qstep = 0 :=
        qualityBound_of_le minQ qstep q hstep (le_of_not_lt hq)
      simp only [toBlobLoop, hb0]
      rw [if_neg (by tauto)]
      simp

/-- The concrete iteration bound of `compressImage`'s quality schedule:
`⌈(0.92 − 0.35)/0.07⌉ = 9`. -/
theorem qualityBound_config : qualityBound (92 / 100) (35 / 100) (7 / 100) = 9 := by
  unfold qualityBound
  have h : (⌈((92 : ℚ) / 100 - 35 / 100) / (7 / 100)⌉) = 9 := by
    rw [Int.ceil_eq_iff]
    norm_num

  rw [h]
  rfl

/-- When no encode ever fits the budget, `compressImage` returns the blob of
the ninth re-encode, produced at quality `0.92 − 9·0.07 = 0.29`. -/
theorem compressImage_never_fits (enc : ℕ → ℕ → ℚ → Option ℕ) (file : ImageFile)
    (maxB maxW : ℕ) (hdec : file.decodable = true)
    (henc : ∀ w h q, ∃ sz, enc w h q = some sz ∧ maxB < sz) :
    ∃ szf, maxB < szf ∧
      compressImage enc file maxB maxW =
        .encoded szf (resizeDims file.width file.height maxW).1
          (resizeDims file.width file.height maxW).2 (29 / 100) := by
  obtain ⟨sz0, he0, hb0⟩ :=
    henc (resizeDims file.width file.height maxW).1 (resizeDims file.width file.height maxW).2
      (92 / 100)
  obtain ⟨szf, hbf, hloop⟩ :=
    toBlobLoop_never_fits
      (enc (resizeDims file.width file.height maxW).1 (resizeDims file.width file.height maxW).2)
      maxB (35 / 100) (7 / 100) (by norm_num)
      (fun q' =>
        henc (resizeDims file.width file.height maxW).1
          (resizeDims file.width file.height maxW).2 q')
      (compressFuel (92 / 100) (35 / 100) (7 / 100)) (92 / 100) sz0 hb0
      (by unfold compressFuel; omega)
  refine ⟨szf, hbf, ?_⟩
  have hq : (92 : ℚ) / 100 - (qualityBound (92 / 100) (35 / 100) (7 / 100) : ℚ) * (7 / 100) =
      29 / 100 := by
    rw [qualityBound_config]; norm_num
  simp only [compressImage, compressImageCore, hdec, if_true]
  rw [he0, hloop]
  simp only [hq]

/-! ## C6 — termination and final quality when the budget is never met -/


/-- C6, counterexample: with a 2 MiB budget that no encode meets, the blob
`compressImage` returns was produced at quality 0.29, strictly below
`minQuality = 0.35` — refuting both "returns the blob produced at
minQuality" and "never goes below minQuality".  (The loop decrements while
`quality > 0.35` and re-encodes after the decrement, so the last re-encode
happens one step below the first quality `≤ 0.35`.) -/
theorem c6_below_min_quality_cex :
    outQuality (compressImage (fun _ _ _ => some 2097153) ⟨9000000, 2400, 1600, true⟩ 2097152 1200) =
      some (29 / 100) ∧ ((29 : ℚ) / 100 < 35 / 100) := by
  obtain ⟨szf, _, heq⟩ :=
    compressImage_never_fits (fun _ _ _ => some 2097153) ⟨9000000, 2400, 1600, true⟩ 2097152 1200
      rfl (fun w h q => ⟨2097153, rfl, by norm_num⟩)
  rw [heq]
  exact ⟨rfl, by norm_num⟩

/-- C6, amended: when no quality yields an output within `maxBytes`, `encode`
terminates — the loop exits through its own guard within
`⌈(initialQuality − minQuality)/qualityStep⌉ = 9` re-encodes (never by the
fuel bound), every quality used lies on the decreasing sequence
`0.92 − k·0.07`, and the returned blob is the one produced at the FIRST
quality of that sequence `≤ minQuality`, namely `0.29` — which is strictly
below `minQuality = 0.35` (though never below `minQuality − qualityStep`),
not at `minQuality` as claimed. -/
theorem c6_budget_never_met_amended (enc : ℕ → ℕ → ℚ → Option ℕ) (file : ImageFile)
    (maxB maxW : ℕ) (hdec : file.decodable = true)
    (henc : ∀ w h q, ∃ sz, enc w h q = some sz ∧ maxB < sz) :
    qualityBound (92 / 100) (35 / 100) (7 / 100) = 9 ∧
    (∃ szf, maxB < szf ∧
      compressImage enc file maxB maxW =
        .encoded szf (resizeDims file.width file.height maxW).1
          (resizeDims file.width file.height maxW).2 (29 / 100)) ∧
    ((29 : ℚ) / 100 = 92 / 100 - 9 * (7 / 100)) ∧
    ((29 : ℚ) / 100 ≤ 35 / 100) ∧ ((35 : ℚ) / 100 - 7 / 100 < 29 / 100) ∧
    (∀ fuel q b,
      (toBlobLoop (enc (resizeDims file.width file.height maxW).1
          (resizeDims file.width file.height maxW).2) maxB (35 / 100) (7 / 100) fuel q b).iters ≤
        qualityBound q (35 / 100) (7 / 100)) := by
  refine ⟨qualityBound_config, compressImage_never_fits enc file maxB maxW hdec henc,
    by norm_num, by norm_num, by norm_num, ?_⟩
  intro fuel q b
  exact toBlobLoop_iters_le _ maxB _ _ (by norm_num) fuel q b

/-- C6, witness: a concrete never-fitting policy run reaching quality 0.29. -/
theorem c6_budget_never_met_amended_witness :
    outQuality (compressImage (fun _ _ _ => some 11) ⟨2000000, 800, 600, true⟩ 10 1200) =
      some (29 / 100) := by
  obtain ⟨-, ⟨szf, -, heq⟩, -⟩ :=
    c6_budget_never_met_amended (fun _ _ _ => some 11) ⟨2000000, 800, 600, true⟩ 10 1200
      rfl (fun w h q => ⟨11, rfl, by norm_num⟩)
  rw [heq]
  rfl

/-! ## C7 — the one-time proportional downscale -/

/-- The dimensions of an encoded result of `compressImageCore` are exactly
`resizeDims` of the input's natural dimensions. -/
theorem compressImageCore_dims (enc : ℕ → ℕ → ℚ → Option ℕ) (file : ImageFile)
    (maxB maxW sz w h : ℕ) (q : ℚ) (hdec : file.decodable = true)
    (hout : compressImageCore enc file maxB maxW = .ok (.encoded sz w h q)) :
    w = (resizeDims file.width file.height maxW).1 ∧
    h = (resizeDims file.width file.height maxW).2 := by
  simp only [compressImageCore, hdec, if_true] at hout
  split at hout
  · injection hout with hout
    injection hout with h1 h2 h3 h4
    exact ⟨h2.symm, h3.symm⟩
  · injection hout with hout
    exact absurd hout (by simp)

/-- The resize holds of `compressImage` itself (the catch wrapper changes no
encoded result). -/
theorem compressImage_dims (enc : ℕ → ℕ → ℚ → Option ℕ) (file : ImageFile)
    (maxB maxW sz w h : ℕ) (q : ℚ) (hdec : file.decodable = true)
    (hout : compressImage enc file maxB maxW = .encoded sz w h q) :
    w = (resizeDims file.width file.height maxW).1 ∧
    h = (resizeDims file.width file.height maxW).2 := by
  have hcore : compressImageCore enc file maxB maxW = .ok (.encoded sz w h q) := by
    unfold compressImage at hout
    split at hout
    · rename_i r hr
      rw [hr, hout]
    · exact absurd hout (by simp)
  exact compressImageCore_dims enc file maxB maxW sz w h q hdec hcore

/-- Same statement for `maybeCompress` (script.js), whose `MAX_W` is 1600. -/
theorem maybeCompress_dims (enc : ℕ → ℕ → ℚ → Option ℕ) (f : ImageFile)
    (sz w h : ℕ) (q : ℚ)
    (hout : maybeCompress enc (some f) = .ok (.encoded sz w h q)) :
    w = (resizeDims f.width f.height 1600).1 ∧ h = (resizeDims f.width f.height 1600).2 := by
  simp only [maybeCompress] at hout
  split at hout
  · injection hout with hout
    exact absurd hout (by simp)
  · split at hout
    · split at hout
      · injection hout with hout
        injection hout with h1 h2 h3 h4
        exact ⟨h2.symm, h3.symm⟩
      · injection hout with hout
        exact absurd hout (by simp)
    · exact absurd hout (by simp)

/-- C7: for decodable inputs whose natural width fits `maxW` the encoded
output keeps the input's pixel dimensions; when the width exceeds `maxW` the
output is exactly `maxW` wide and `round(h·maxW/w)` tall — in both
`compressImage` (maxW parameter, default 1200) and `maybeCompress`
(`MAX_W = 1600`); the resize is computed once, before the re-encode loop. -/
theorem c7_resize_dims (enc : ℕ → ℕ → ℚ → Option ℕ) (file : ImageFile)
    (maxB maxW sz w h : ℕ) (q : ℚ) (hdec : file.decodable = true) :
    (compressImage enc file maxB maxW = .encoded sz w h q →
      (file.width ≤ maxW → (w, h) = (file.width, file.height)) ∧
      (maxW < file.width →
        w = maxW ∧ h = jsRoundNat ((file.height : ℚ) * (maxW : ℚ) / (file.width : ℚ)))) ∧
    (maybeCompress enc (some file) = .ok (.encoded sz w h q) →
      (file.width ≤ 1600 → (w, h) = (file.width, file.height)) ∧
      (1600 < file.width →
        w = 1600 ∧ h = jsRoundNat ((file.height : ℚ) * (1600 : ℚ) / (file.width : ℚ)))) := by
  constructor
  · intro hout
    obtain ⟨hw, hh⟩ := compressImage_dims enc file maxB maxW sz w h q hdec hout
    constructor
    · intro hle
      rw [hw, hh, resizeDims, if_neg (by omega)]
    · intro hlt
      constructor
      · rw [hw]; simp [resizeDims, hlt]
      · rw [hh]; simp [resizeDims, hlt]; rw [mul_div_assoc]
  · intro hout
    obtain ⟨hw, hh⟩ := maybeCompress_dims enc file sz w h q hout
    constructor
    · intro hle
      rw [hw, hh, resizeDims, if_neg (by omega)]
    · intro hlt
      constructor
      · rw [hw]; simp [resizeDims, hlt]
      · rw [hh]; simp [resizeDims, hlt]; rw [mul_div_assoc]

/-- C7, witness: a decodable 2400×1600 image under `maxW = 1200` encodes
1200 wide and `round(1600·1200/2400) = 800` tall. -/
theorem c7_resize_dims_witness :
    (resizeDims 2400 1600 1200).1 = 1200 ∧
    (resizeDims 2400 1600 1200).2 = jsRoundNat ((1600 : ℚ) * (1200 : ℚ) / (2400 : ℚ)) ∧
    jsRoundNat ((1600 : ℚ) * (1200 : ℚ) / (2400 : ℚ)) = 800 := by
  obtain ⟨szf, -, heq⟩ :=
    compressImage_never_fits (fun _ _ _ => some 2097153) ⟨9000000, 2400, 1600, true⟩ 2097152 1200
      rfl (fun w h q => ⟨2097153, rfl, by norm_num⟩)
  obtain ⟨hw, hh⟩ := ((c7_resize_dims (fun _ _ _ => some 2097153) ⟨9000000, 2400, 1600, true⟩
    2097152 1200 szf _ _ (29 / 100) rfl).1 heq).2 (by norm_num)
  refine ⟨hw, hh, ?_⟩
  unfold jsRoundNat
  norm_num
  decide

/-! ## C8 — decode failure handling -/

/-- C8, counterexample: script.js's `maybeCompress` (also cited by the
claim) has no `try/catch` — for a 2 MiB file that fails to decode, the
decode error propagates to the caller instead of the original file being
returned. -/
theorem c8_decode_failure_cex :
    maybeCompress (fun _ _ _ => none) (some ⟨2097152, 1000, 1000, false⟩) =
      .error .decodeError :=
  rfl

/-- C8, amended: analyze.js's `compressImage` never propagates an error — on
decode failure its catch returns the original input file unchanged; but
script.js's `maybeCompress` propagates the decode error to its caller for
every present file large enough to reach the decode step (and throws on a
missing file). -/
theorem c8_decode_failure_amended (enc : ℕ → ℕ → ℚ → Option ℕ) (f : ImageFile)
    (maxB maxW : ℕ) :
    (f.decodable = false → compressImage enc f maxB maxW = .original) ∧
    (f.decodable = false → 1572864 < f.size →
      maybeCompress enc (some f) = .error .decodeError) ∧
    maybeCompress enc none = .error .noFileError := by
  refine ⟨fun hdec => ?_, fun hdec hsz => ?_, rfl⟩
  · simp [compressImage, compressImageCore, hdec]
  · simp [maybeCompress, Nat.not_le.mpr hsz, hdec]

/-- C8, witness: a 2 MiB undecodable file is recovered by `compressImage`
but makes `maybeCompress` fail. -/
theorem c8_decode_failure_amended_witness :
    compressImage (fun _ _ _ => none) ⟨2097152, 1000, 1000, false⟩ 2097152 1200 = .original ∧
    maybeCompress (fun _ _ _ => none) (some ⟨2097152, 1000, 1000, false⟩) =
      .error .decodeError :=
  ⟨(c8_decode_failure_amended (fun _ _ _ => none) ⟨2097152, 1000, 1000, false⟩ 2097152 1200).1 rfl,
   (c8_decode_failure_amended (fun _ _ _ => none) ⟨2097152, 1000, 1000, false⟩ 2097152 1200).2.1
     rfl (by decide)⟩

/-! ## C9 — conditional idempotence of `normalizeResponse` -/


theorem isUndefined_of_truthy (v : JsVal) (h : v.truthy = true) : v.isUndefined = false := by
  cases v <;> simp_all [JsVal.truthy, JsVal.isUndefined]

theorem isNull_eq (b : JsVal) (h : b.isNull = true) : b = .vnull := by
  cases b <;> simp_all [JsVal.isNull]

theorem jsOr_of_truthy (a b : JsVal) (h : a.truthy = true) : jsOr a b = a := by
  simp [jsOr, h]

theorem jsOr_of_falsy (a b : JsVal) (h : a.truthy = false) : jsOr a b = b := by
  simp [jsOr, h]

/-- A re-pass-stable detection is a fixed point of `mapDetection`. -/
theorem mapDetection_fixed (d : JsVal) (hd : goodDet d = true) : mapDetection d = .ok d := by
  unfold goodDet at hd
  split at hd
  · rename_i n c b
    simp only [Bool.and_eq_true, decide_eq_true_eq, Bool.or_eq_true] at hd
    obtain ⟨⟨hn, htrim⟩, hb⟩ := hd
    have hnt : (JsVal.vstr n).truthy = true := by simp [JsVal.truthy, hn]
    have hbb : jsOr b (jsOr .vundefined (jsOr .vundefined .vnull)) = b := by
      rcases hb with hb | hb
      · exact jsOr_of_truthy _ _ hb
      · rw [isNull_eq b hb]; rfl
    have hcn : JsVal.toNumber (jsOr (.vnum (.fin c)) (.vnum (.fin 0))) = .fin c := by
      by_cases hc : c = 0
      · subst hc
        rw [jsOr_of_falsy _ _ (by simp [JsVal.truthy])]
        rfl
      · rw [jsOr_of_truthy _ _ (by simp [JsVal.truthy, hc])]
        rfl
    unfold mapDetection
    simp only [getF, lookupF]
    simp [JsVal.isUndefined, JsVal.jsToString, htrim, hbb, hcn, jsOr_of_truthy _ _ hnt]
  · exact absurd hd (by simp)

/-- `mapM` over pointwise-fixed elements is the identity. -/
theorem mapM_fixed (l : List JsVal) (hf : ∀ x ∈ l, mapDetection x = .ok x) :
    l.mapM mapDetection = .ok l := by
  induction l with
  | nil => rfl
  | cons x xs ih =>
    rw [List.mapM_cons, hf x (by simp), ih (fun y hy => hf y (by simp [hy]))]
    rfl

theorem body_getF_json (r : JsVal) (d : List JsVal) :
    getF (normalizedBody r d) "json" = .vundefined := by
  simp [normalizedBody, getF, lookupF]

theorem body_getF_file (r : JsVal) (d : List JsVal) :
    getF (normalizedBody r d) "file" = .vundefined := by
  simp [normalizedBody, getF, lookupF]

theorem body_truthy (r : JsVal) (d : List JsVal) :
    (normalizedBody r d).truthy = true := by
  simp [normalizedBody, JsVal.truthy]

theorem effRaw_body (r : JsVal) (d : List JsVal) :
    effRaw (normalizedBody r d) = normalizedBody r d := by
  unfold effRaw
  rw [if_neg]
  rw [body_getF_json]
  simp [JsVal.truthy]

theorem detectedSource_body (r : JsVal) (d : List JsVal) :
    detectedSource (normalizedBody r d) = d := by
  unfold detectedSource
  rw [body_getF_detected]
  simp [JsVal.isArr, asArr]

theorem recsSource_body (r : JsVal) (d : List JsVal) :
    recsSource (normalizedBody r d) =
      (if (recsSource r).length = 0 ∧ d.length ≠ 0 then d.map synthRec else recsSource r) := by
  conv_lhs => unfold recsSource
  rw [body_getF_recs]
  simp [JsVal.isArr, asArr]

/-- The body built over a body is the same body: every field of
`normalizedBody r detected` re-normalizes to itself (given fixed-point
detections), so a second pass of `normalizeResponse` returns it unchanged. -/
theorem normalizedBody_fixed (r : JsVal) (detected : List JsVal)
    (hdets : ∀ d ∈ detected, mapDetection d = .ok d) :
    normalizeResponse (normalizedBody r detected) = .ok (normalizedBody r detected) := by
  rw [normalizeResponse, if_neg (by rw [body_truthy]; simp), effRaw_body, detectedSource_body,
    mapM_fixed detected hdets]
  show Except.ok (normalizedBody (normalizedBody r detected) detected) =
    .ok (normalizedBody r detected)
  set B := normalizedBody r detected with hBdef
  have hsucc : (if (getF B "success").isUndefined then JsVal.vbool true else getF B "success") =
      (if (getF r "success").isUndefined then JsVal.vbool true else getF r "success") := by
    rw [hBdef, body_getF_success]
    by_cases hs : (getF r "success").isUndefined
    · rw [if_pos hs]
      rfl
    · rw [if_neg hs, if_neg hs]
  have hrecs : (if (recsSource B).length = 0 ∧ detected.length ≠ 0
      then detected.map synthRec else recsSource B) =
      (if (recsSource r).length = 0 ∧ detected.length ≠ 0 then detected.map synthRec
        else recsSource r) := by
    rw [hBdef, recsSource_body]
    by_cases hc : (recsSource r).length = 0 ∧ detected.length ≠ 0
    · rw [if_pos hc, if_neg (by
        intro hcontra
        rw [List.length_map] at hcontra
        exact hc.2 hcontra.1)]
    · rw [if_neg hc]
      rw [if_neg hc]
  have heco : (if (getF B "eco_points").isUndefined
      then jsOr (getF B "points") (jsOr (getF B "points_earned") (.vnum (.fin 0)))
      else getF B "eco_points") =
      (if (getF r "eco_points").isUndefined
        then jsOr (getF r "points") (jsOr (getF r "points_earned") (.vnum (.fin 0)))
        else getF r "eco_points") := by
    have hne : ((if (getF r "eco_points").isUndefined
        then jsOr (getF r "points") (jsOr (getF r "points_earned") (.vnum (.fin 0)))
        else getF r "eco_points")).isUndefined = false := by
      by_cases he : (getF r "eco_points").isUndefined
      · rw [if_pos he]
        unfold jsOr
        split
        · next h1 => exact isUndefined_of_truthy _ h1
        · split
          · next h2 => exact isUndefined_of_truthy _ h2
          · rfl
      · rw [if_neg he]
        simpa using he
    rw [hBdef, body_getF_eco, if_neg (by rw [hne]; simp)]
  have hcarb : (if (getF B "carbon_saved_kg").isUndefined
      then jsOr (getF B "carbon") (.vnum (.fin 0))
      else getF B "carbon_saved_kg") =
      (if (getF r "carbon_saved_kg").isUndefined
        then jsOr (getF r "carbon") (.vnum (.fin 0))
        else getF r "carbon_saved_kg") := by
    have hne : ((if (getF r "carbon_saved_kg").isUndefined
        then jsOr (getF r "carbon") (.vnum (.fin 0))
        else getF r "carbon_saved_kg")).isUndefined = false := by
      by_cases he : (getF r "carbon_saved_kg").isUndefined
      · rw [if_pos he]
        unfold jsOr
        split
        · next h1 => exact isUndefined_of_truthy _ h1
        · rfl
      · rw [if_neg he]
        simpa using he
    rw [hBdef, body_getF_carbon, if_neg (by rw [hne]; simp)]
  have hfn : jsOr (getF B "filename") (jsOr (getF B "file") (.vstr "")) =
      jsOr (getF r "filename") (jsOr (getF r "file") (.vstr "")) := by
    rw [hBdef, body_getF_filename, body_getF_file]
    by_cases h1 : (jsOr (getF r "filename") (jsOr (getF r "file") (.vstr ""))).truthy
    · rw [jsOr_of_truthy _ _ h1]
    · rw [jsOr_of_falsy _ _ (by simpa using h1)]
      have h2 : jsOr (getF r "filename") (jsOr (getF r "file") (.vstr "")) = .vstr "" := by
        by_cases ha : (getF r "filename").truthy
        · rw [jsOr_of_truthy _ _ ha] at h1
          exact absurd ha h1
        · rw [jsOr_of_falsy _ _ (by simpa using ha)] at h1 ⊢
          by_cases hb2 : (getF r "file").truthy
          · rw [jsOr_of_truthy _ _ hb2] at h1
            exact absurd hb2 h1
          · rw [jsOr_of_falsy _ _ (by simpa using hb2)]
      rw [h2]
      rfl
  have hdbg : jsOr (getF B "debug")
      (.vobj [("model_loaded", jsOr (getF B "model_loaded") (.vbool false)),
              ("detections_count", .vnum (.fin detected.length))]) =
      jsOr (getF r "debug")
        (.vobj [("model_loaded", jsOr (getF r "model_loaded") (.vbool false)),
                ("detections_count", .vnum (.fin detected.length))]) := by
    rw [hBdef, body_getF_debug]
    apply jsOr_of_truthy
    unfold jsOr
    split
    · next ht => exact ht
    · simp [JsVal.truthy]
  have hunf : normalizedBody B detected = .vobj
      [("success", if (getF B "success").isUndefined then JsVal.vbool true else getF B "success"),
       ("detected_objects", .varr detected),
       ("recommendations", .varr (if (recsSource B).length = 0 ∧ detected.length ≠ 0
          then detected.map synthRec else recsSource B)),
       ("eco_points", if (getF B "eco_points").isUndefined
          then jsOr (getF B "points") (jsOr (getF B "points_earned") (.vnum (.fin 0)))
          else getF B "eco_points"),
       ("carbon_saved_kg", if (getF B "carbon_saved_kg").isUndefined
          then jsOr (getF B "carbon") (.vnum (.fin 0))
          else getF B "carbon_saved_kg"),
       ("filename", jsOr (getF B "filename") (jsOr (getF B "file") (.vstr ""))),
       ("debug", jsOr (getF B "debug")
          (.vobj [("model_loaded", jsOr (getF B "model_loaded") (.vbool false)),
                  ("detections_count", .vnum (.fin detected.length))]))] := rfl
  rw [hunf, hsucc, hrecs, heco, hcarb, hfn, hdbg, hBdef]
  rfl

/-- C9, amended: normalization is idempotent on every truthy raw input whose
normalized detections are re-pass-stable (non-empty already-trimmed names,
non-NaN confidences) — `normalize (normalize r) = normalize r` then holds.
It fails for falsy inputs (the null default lacks `filename`/`debug`, which
a second pass adds — see the counterexample) and for detections that
normalize to an empty name or NaN confidence. -/
theorem c9_idempotent_amended (raw out : JsVal)
    (htr : raw.truthy = true)
    (h : normalizeResponse raw = .ok out)
    (hgood : goodOut out = true) :
    normalizeResponse out = .ok out := by
  obtain ⟨detected, hm, hout⟩ := normalize_ok_inv raw out htr h
  subst hout
  apply normalizedBody_fixed
  intro d hd
  apply mapDetection_fixed
  unfold goodOut at hgood
  rw [body_getF_detected] at hgood
  simp only [asArr] at hgood
  exact List.all_eq_true.mp hgood d hd

/-- C9, witness: re-normalizing the normalization of `c9raw` changes
nothing. -/
theorem c9_idempotent_amended_witness : normalizeResponse c9out = .ok c9out :=
  c9_idempotent_amended c9raw c9out rfl rfl (by decide)
